import Mathlib

/-!
Shallow embedding of the keyframe extraction pipeline of
`src/video_summarizer/keyframes/extractor.py` (class `KeyframeExtractor`),
together with theorems checking the natural-language specification against it.

Modelling conventions:
* A perceptual hash (`imagehash.ImageHash`) is a fixed-length bit pattern; the
  difference `a - b` computed by the `imagehash` library is the Hamming
  distance (count of differing bits), a non-negative integer, so the source's
  `abs(frame_hash - prev_hash)` is modelled by `phashDist`.
* Video decoding, the EAST network forward pass, and disk writes are external
  effects: a video is modelled as the list of its decoded frames, where each
  frame carries the result of `_decode_predictions` on it (`rects`,
  `confidences`) and its perceptual hash.
* Python `float` arithmetic is modelled over `ℚ`; `np.cos` / `np.sin` are kept
  abstract as function parameters; Python's `int(...)` cast truncates toward
  zero and is modelled by `truncI`.
-/

namespace VideoSummarizer

set_option maxRecDepth 1000000

set_option linter.unusedVariables false

/-- A perceptual-hash fingerprint: the fixed-length bit pattern of a pHash. -/
abbrev Fingerprint : Type := List Bool

/-- Hamming distance between two fingerprints, as computed by
`abs(frame_hash - prev_hash)` in the source (the `imagehash` difference
operator counts differing bits; `abs` is the identity on that count). -/
def phashDist (a b : Fingerprint) : ℕ :=
  (List.zipWith (fun x y => x != y) a b).count true

/-- One sampled frame, as seen by the selection loop of
`_east_text_frame_extraction`: the decoded text regions and confidences from
`_decode_predictions`, and the frame's perceptual hash from `_get_phash`. -/
structure FrameData where
  rects : List (ℤ × ℤ × ℤ × ℤ)
  confidences : List ℚ
  hash : Fingerprint
deriving DecidableEq

/-- The mutable similarity-detection state of `_east_text_frame_extraction`:
`prev_hash` (the hash the next candidate is compared against) and
`last_similar` (the retained `(frame, frame_id)` pair, identified here by its
frame id; the pixel buffer itself only flows into the image file). -/
structure SelState where
  prev_hash : Option Fingerprint
  last_similar : Option ℕ
deriving DecidableEq

/-- Python `f"{n:05d}"`: decimal rendering left-padded with zeros to width 5. -/
def pad5 (n : ℕ) : String :=
  let s := toString n
  String.mk (List.replicate (5 - s.length) '0') ++ s

/-- One saved-frame metadata dictionary, as appended by
`save_frame_and_metadata`. -/
structure SavedMeta where
  frame_id : String
  frame_number : ℕ
  timestamp : ℚ
  source_video : String
  frame_path : String
deriving DecidableEq

/-- The metadata record built by `save_frame_and_metadata` for frame id `fid`:
filename `frame_{fid:05d}.jpg`, timestamp `fid / fps`. -/
def saveMeta (sourceVideo imagesDir : String) (fps : ℚ) (fid : ℕ) : SavedMeta :=
  let fname := "frame_" ++ pad5 fid ++ ".jpg"
  { frame_id := fname
    frame_number := fid
    timestamp := (fid : ℚ) / fps
    source_video := sourceVideo
    frame_path := imagesDir ++ "/" ++ fname }

/-- `save_frame_and_metadata` itself (extractor.py lines 118-130), including
the disk write: `cv2.imwrite` reports success or failure through its return
value, which the source discards, so the function appends the metadata record
and returns successfully regardless of `writeOk`. -/
def save_frame_and_metadata (writeOk : Bool) (sourceVideo imagesDir : String)
    (fps : ℚ) (saved_metadata : List SavedMeta) (fid : ℕ) :
    Except Unit (List SavedMeta) :=
  -- `cv2.imwrite(str(frame_path), frame)` : return value `writeOk` unused
  Except.ok (saved_metadata ++ [saveMeta sourceVideo imagesDir fps fid])

/-- The per-candidate-frame body of the selection loop (extractor.py lines
167-185): the text-density gate `len(rects) > 50` followed by the
perceptual-hash similarity cases. Returns the updated state and the metadata
records emitted by this step. -/
def selStep (sourceVideo imagesDir : String) (fps : ℚ) (hash_thresh : ℕ)
    (st : SelState) (frame_id : ℕ) (fd : FrameData) : SelState × List SavedMeta :=
  if fd.rects.length > 50 then
    match st.prev_hash with
    | none =>
        -- First frame with text
        (⟨some fd.hash, some frame_id⟩, [])
    | some ph =>
        if phashDist fd.hash ph ≤ hash_thresh then
          -- Similar to previous frame, update to latest
          (⟨st.prev_hash, some frame_id⟩, [])
        else
          -- Different from previous, save the last similar frame
          match st.last_similar with
          | some ls =>
              (⟨some fd.hash, some frame_id⟩, [saveMeta sourceVideo imagesDir fps ls])
          | none =>
              (⟨some fd.hash, some frame_id⟩, [])
  else (st, [])

/-- The frame loop of `_east_text_frame_extraction` (lines 132-191): frames
whose id is not a multiple of `frame_skip` are grabbed and skipped; sampled
frames go through `selStep`; at end of stream the pending `last_similar`
frame, if any, is flushed. -/
def eastLoop (sourceVideo imagesDir : String) (fps : ℚ)
    (frame_skip hash_thresh : ℕ) :
    List FrameData → ℕ → SelState → List SavedMeta
  | [], _, st =>
      -- Save final frame if needed
      match st.last_similar with
      | some ls => [saveMeta sourceVideo imagesDir fps ls]
      | none => []
  | fd :: rest, frame_id, st =>
      if frame_id % frame_skip ≠ 0 then
        eastLoop sourceVideo imagesDir fps frame_skip hash_thresh rest (frame_id + 1) st
      else
        let step := selStep sourceVideo imagesDir fps hash_thresh st frame_id fd
        step.2 ++ eastLoop sourceVideo imagesDir fps frame_skip hash_thresh rest (frame_id + 1) step.1

/-- `_east_text_frame_extraction`: run the loop from frame id `0` with empty
similarity state (`prev_hash = None`, `last_similar = None`,
`hash_thresh = 15` at the call site). -/
def east_text_frame_extraction (sourceVideo imagesDir : String) (fps : ℚ)
    (frame_skip hash_thresh : ℕ) (frames : List FrameData) : List SavedMeta :=
  eastLoop sourceVideo imagesDir fps frame_skip hash_thresh frames 0 ⟨none, none⟩

/-! The EAST prediction decoder `_decode_predictions`. Python `float`
arithmetic is modelled over `ℚ`; `np.cos` and `np.sin` are external library
functions and are kept abstract as the parameters `cosF` and `sinF`. -/

/-- Python `int(...)` on a real value: truncation toward zero. -/
def truncI (q : ℚ) : ℤ := if 0 ≤ q then ⌊q⌋ else ⌈q⌉

/-- The EAST forward-pass outputs for one frame: the score map
`scores[0, 0, y][x]` and the five geometry channels `geometry[0, c, y][x]`,
with the spatial extent `(numRows, numCols) = scores.shape[2:4]`. -/
structure EastMaps where
  numRows : ℕ
  numCols : ℕ
  score : ℕ → ℕ → ℚ
  geom : ℕ → ℕ → ℕ → ℚ

/-- The box computed for one passing cell `(y, x)` (extractor.py lines
227-236): feature-map stride 4 offsets, `h = d0+d2`, `w = d1+d3`, far corner
from the rotated distances, near corner by subtracting `w` and `h`; each
coordinate passes through Python's `int(...)`. -/
def eastBox (cosF sinF : ℚ → ℚ) (m : EastMaps) (y x : ℕ) : ℤ × ℤ × ℤ × ℤ :=
  let offsetX : ℚ := (x : ℚ) * 4
  let offsetY : ℚ := (y : ℚ) * 4
  let angle := m.geom 4 y x
  let cosA := cosF angle
  let sinA := sinF angle
  let h := m.geom 0 y x + m.geom 2 y x
  let w := m.geom 1 y x + m.geom 3 y x
  let endX := truncI (offsetX + cosA * m.geom 1 y x + sinA * m.geom 2 y x)
  let endY := truncI (offsetY - sinA * m.geom 1 y x + cosA * m.geom 2 y x)
  let startX := truncI ((endX : ℚ) - w)
  let startY := truncI ((endY : ℚ) - h)
  (startX, startY, endX, endY)

/-- The inner `for x in range(numCols)` loop of `_decode_predictions` over a
given list of column indices: cells with `score < confThreshold` are skipped
(`continue`), every other cell appends its box to `rects` and its score to
`confidences`. -/
def decodeCells (cosF sinF : ℚ → ℚ) (m : EastMaps) (confThreshold : ℚ)
    (y : ℕ) : List ℕ → List (ℤ × ℤ × ℤ × ℤ) × List ℚ
  | [] => ([], [])
  | x :: xs =>
      let rest := decodeCells cosF sinF m confThreshold y xs
      if m.score y x < confThreshold then rest
      else (eastBox cosF sinF m y x :: rest.1, m.score y x :: rest.2)

/-- The outer `for y in range(numRows)` loop of `_decode_predictions` over a
given list of row indices. -/
def decodeRows (cosF sinF : ℚ → ℚ) (m : EastMaps) (confThreshold : ℚ) :
    List ℕ → List (ℤ × ℤ × ℤ × ℤ) × List ℚ
  | [] => ([], [])
  | y :: ys =>
      let row := decodeCells cosF sinF m confThreshold y (List.range m.numCols)
      let rest := decodeRows cosF sinF m confThreshold ys
      (row.1 ++ rest.1, row.2 ++ rest.2)

/-- `_decode_predictions` (extractor.py lines 199-241): decode the score and
geometry maps into text-region boxes and confidences. -/
def decode_predictions (cosF sinF : ℚ → ℚ) (m : EastMaps)
    (confThreshold : ℚ) : List (ℤ × ℤ × ℤ × ℤ) × List ℚ :=
  decodeRows cosF sinF m confThreshold (List.range m.numRows)

/-- The spatial cells `(y, x)` of the given rows, each row fully traversed in
column order, as the source's nested loops iterate them. -/
def rowCells (m : EastMaps) (ys : List ℕ) : List (ℕ × ℕ) :=
  ys.flatMap fun y => (List.range m.numCols).map fun x => (y, x)

/-- All spatial cells `(y, x)` of the score map in the row-major order the
source iterates them. -/
def rowMajorCells (m : EastMaps) : List (ℕ × ℕ) :=
  rowCells m (List.range m.numRows)

/-- The cells of `cells` that pass the confidence threshold, i.e. are not
skipped by the decoder's `score < confThreshold` test. -/
def keptCells (m : EastMaps) (thr : ℚ) (cells : List (ℕ × ℕ)) : List (ℕ × ℕ) :=
  cells.filter fun c => !decide (m.score c.1 c.2 < thr)

/-! Concrete fingerprints and frame streams used in scenario theorems. -/

/-- An all-zero 64-bit fingerprint. -/
def hBase : Fingerprint := List.replicate 64 false

/-- A fingerprint at Hamming distance 64 from `hBase`. -/
def hFar : Fingerprint := List.replicate 64 true

/-- A fingerprint at Hamming distance 32 from both `hBase` and `hFar`. -/
def hFar2 : Fingerprint := List.replicate 32 false ++ List.replicate 32 true

/-- A fingerprint at Hamming distance 1 from `hBase`. -/
def hNear : Fingerprint := true :: List.replicate 63 false

/-- A fingerprint at Hamming distance exactly 15 from `hBase`. -/
def hDist15 : Fingerprint := List.replicate 15 true ++ List.replicate 49 false

/-- A fingerprint at Hamming distance exactly 16 from `hBase`. -/
def hDist16 : Fingerprint := List.replicate 16 true ++ List.replicate 48 false

/-- A decode result with 51 boxes: just over the `> 50` text-density gate. -/
def denseRects : List (ℤ × ℤ × ℤ × ℤ) := List.replicate 51 (0, 0, 0, 0)

/-- The spec's stride-240 scenario stream: 961 frames, the sampled frames
0, 240, 480, 720, 960 all text-dense; frames 0, 240, 480 share the same
fingerprint, 720 is far from it, and 960 is far from 720. -/
def c3Frames : List FrameData :=
  (List.range 961).map fun i =>
    if i = 720 then ⟨denseRects, [], hFar⟩
    else if i = 960 then ⟨denseRects, [], hFar2⟩
    else if i % 240 = 0 then ⟨denseRects, [], hBase⟩
    else ⟨[], [], []⟩

/-! The public layer: `KeyframeExtractor.__init__`, `extract` and
`_convert_to_keyframes`. -/

/-- The output record type `Keyframe` of `models/data_models.py`, with the
fields the extractor's constructor call site sets (timestamps and confidence
over `ℚ`, paths as strings). -/
structure Keyframe where
  timestamp : ℚ
  image_path : String
  description : String
  confidence_score : ℚ
  source_video : String
deriving DecidableEq

/-- `_convert_to_keyframes` (extractor.py lines 257-280): one `Keyframe` per
metadata record, with the hardcoded confidence score 0.8; `fmt` renders the
timestamp as Python's `f"{ts:.2f}"` does and is kept abstract. -/
def convert_to_keyframes (fmt : ℚ → String) (metadata_list : List SavedMeta)
    (source_video : String) : List Keyframe :=
  metadata_list.map fun metadata =>
    { timestamp := metadata.timestamp
      image_path := metadata.frame_path
      description := "Text-rich frame detected at " ++ fmt metadata.timestamp ++ "s"
      confidence_score := 4 / 5  -- 0.8, hardcoded
      source_video := source_video }

/-- The exception kinds observable at the extractor's public interface:
`FileNotFoundError` (raised for a missing model at construction and for a
missing video in `extract`) and the generic `Exception` re-raised by
`extract`'s catch-all handler. -/
inductive ExtractErr where
  | fileNotFound (msg : String)
  | generic (msg : String)
deriving DecidableEq

/-- `KeyframeExtractor.__init__` (extractor.py lines 30-44): eagerly checks
that the EAST model file exists and raises `FileNotFoundError` otherwise;
`modelExists` is the filesystem's answer to `east_model_path.exists()`. -/
def extractorInit (modelExists : Bool) (modelPath : String) :
    Except ExtractErr Unit :=
  if modelExists then Except.ok ()
  else Except.error (ExtractErr.fileNotFound ("EAST model not found at: " ++ modelPath))

/-- `KeyframeExtractor.extract` (extractor.py lines 46-81): a missing video
file raises `FileNotFoundError` before the `try` block; inside the block, any
raised exception `e` is caught and re-raised as a generic
`Exception("Keyframe extraction failed: " + str(e))`. The effectful body
(directory creation, video open, reads, EAST inference, frame writes) is
summarised by `inner`: either the decoded frame stream or the message of the
first exception it raises. -/
def extract (videoExists : Bool) (videoName imagesDir : String) (fps : ℚ)
    (fmt : ℚ → String) (inner : Except String (List FrameData)) :
    Except ExtractErr (List Keyframe) :=
  if videoExists then
    match inner with
    | Except.error e =>
        Except.error (ExtractErr.generic ("Keyframe extraction failed: " ++ e))
    | Except.ok frames =>
        Except.ok (convert_to_keyframes fmt
          (east_text_frame_extraction videoName imagesDir fps 240 15 frames)
          videoName)
  else Except.error (ExtractErr.fileNotFound ("Video file not found: " ++ videoName))

/-- Constructing the extractor and then extracting: `__init__` runs first, so
a missing model fails the whole pipeline before any frame is touched. -/
def runPipeline (modelExists : Bool) (modelPath : String) (videoExists : Bool)
    (videoName imagesDir : String) (fps : ℚ) (fmt : ℚ → String)
    (inner : Except String (List FrameData)) : Except ExtractErr (List Keyframe) :=
  (extractorInit modelExists modelPath).bind fun _ =>
    extract videoExists videoName imagesDir fps fmt inner

/-! Claim theorems: the selector state machine. -/

/-- Claim C1 counterexample: a candidate frame (id 240, 51 text boxes) whose
fingerprint `hNear` is within the similarity threshold of the active run's
fingerprint `hBase` does NOT have its fingerprint installed into the run: the
step keeps `prev_hash = hBase` (the run's first member's fingerprint) while
updating only the representative frame, contradicting the claim that both are
replaced. -/
theorem selStep_similar_counterexample :
    phashDist hNear hBase ≤ 15 ∧ denseRects.length > 50 ∧
    (selStep "video.mp4" "imgs" 24 15 ⟨some hBase, some 0⟩ 240
        ⟨denseRects, [], hNear⟩).1 = ⟨some hBase, some 240⟩ ∧
    (⟨some hBase, some 240⟩ : SelState) ≠ ⟨some hNear, some 240⟩ := by
  decide

/-- Claim C1 (amended): on a candidate frame within the similarity threshold
of the active run, the step replaces the run's representative frame with the
new frame but leaves the run's fingerprint unchanged, so the run keeps the
fingerprint of the frame that opened it while its representative frame is the
most recently seen member; nothing is emitted by the step. -/
theorem selStep_similar_updates_frame_keeps_fingerprint
    (sv dir : String) (fps : ℚ) (t : ℕ) (ph : Fingerprint) (ls : Option ℕ)
    (fid : ℕ) (fd : FrameData)
    (hdense : fd.rects.length > 50) (hsim : phashDist fd.hash ph ≤ t) :
    selStep sv dir fps t ⟨some ph, ls⟩ fid fd = (⟨some ph, some fid⟩, []) := by
  simp [selStep, hdense, hsim]

/-- Witness for the amended C1 theorem at a concrete input. -/
theorem selStep_similar_updates_frame_keeps_fingerprint_witness :
    selStep "video.mp4" "imgs" 24 15 ⟨some hBase, some 0⟩ 240
        ⟨denseRects, [], hNear⟩ = (⟨some hBase, some 240⟩, []) :=
  selStep_similar_updates_frame_keeps_fingerprint "video.mp4" "imgs" 24 15
    hBase (some 0) 240 ⟨denseRects, [], hNear⟩ (by decide) (by decide)

/-- Claim C2 counterexample: with the write reporting failure
(`writeOk = false`), `save_frame_and_metadata` still succeeds and appends the
metadata record — the failure is not surfaced as any error, because the
source discards the return value of `cv2.imwrite`. -/
theorem save_frame_write_failure_counterexample :
    save_frame_and_metadata false "video.mp4" "imgs" 24 [] 480
        = Except.ok [saveMeta "video.mp4" "imgs" 24 480] ∧
    save_frame_and_metadata false "video.mp4" "imgs" 24 [] 480
        ≠ Except.error () :=
  ⟨rfl, fun h => by simp [save_frame_and_metadata] at h⟩

/-- Claim C2 (amended): a failed frame write is never surfaced: for every
write outcome `writeOk`, `save_frame_and_metadata` returns success and
appends the metadata record, identically to a successful write; the
selector's run state (`prev_hash`/`last_similar`) is not touched by the save
helper at all. -/
theorem save_frame_and_metadata_ignores_write_result (writeOk : Bool)
    (sv dir : String) (fps : ℚ) (acc : List SavedMeta) (fid : ℕ) :
    save_frame_and_metadata writeOk sv dir fps acc fid
        = Except.ok (acc ++ [saveMeta sv dir fps fid]) := rfl

/-- Claim C3: on the stride-240, fps-24 scenario stream (`c3Frames`: sampled
frames 0, 240, 480, 720, 960 all text-dense; 0, 240, 480 mutually within the
similarity threshold; 720 beyond it; 960 beyond it from 720), the pipeline
emits exactly three records, representing frames 480, 720 and 960 with
timestamps 20, 30 and 40 seconds — not frames 0 or 240. -/
theorem east_c3_scenario :
    phashDist hBase hBase ≤ 15 ∧ 15 < phashDist hFar hBase ∧
    15 < phashDist hFar2 hFar ∧
    east_text_frame_extraction "video.mp4" "imgs" 24 240 15 c3Frames
        = [saveMeta "video.mp4" "imgs" 24 480,
           saveMeta "video.mp4" "imgs" 24 720,
           saveMeta "video.mp4" "imgs" 24 960] :=
  ⟨by decide, by decide, by decide, by rfl⟩

/-- Claim C4: for two consecutive candidate (text-dense) frames, a hash
distance of exactly the similarity threshold 15 merges them into one run —
one record, representing the later frame — while a distance of 16 yields two
separate records. -/
theorem east_threshold_boundary (sv dir : String) (fps : ℚ)
    (r1 r2 : List (ℤ × ℤ × ℤ × ℤ)) (c1 c2 : List ℚ) (a b : Fingerprint)
    (h1 : r1.length > 50) (h2 : r2.length > 50) :
    (phashDist b a = 15 →
      east_text_frame_extraction sv dir fps 1 15 [⟨r1, c1, a⟩, ⟨r2, c2, b⟩]
        = [saveMeta sv dir fps 1]) ∧
    (phashDist b a = 16 →
      east_text_frame_extraction sv dir fps 1 15 [⟨r1, c1, a⟩, ⟨r2, c2, b⟩]
        = [saveMeta sv dir fps 0, saveMeta sv dir fps 1]) := by
  constructor
  · intro h
    simp [east_text_frame_extraction, eastLoop, selStep, h1, h2, h]
  · intro h
    simp [east_text_frame_extraction, eastLoop, selStep, h1, h2, h]

/-- Witness for the C4 theorem at concrete fingerprints of distance 15 and
16. -/
theorem east_threshold_boundary_witness :
    phashDist hDist15 hBase = 15 ∧ phashDist hDist16 hBase = 16 ∧
    east_text_frame_extraction "v" "d" 24 1 15
        [⟨denseRects, [], hBase⟩, ⟨denseRects, [], hDist15⟩]
      = [saveMeta "v" "d" 24 1] ∧
    east_text_frame_extraction "v" "d" 24 1 15
        [⟨denseRects, [], hBase⟩, ⟨denseRects, [], hDist16⟩]
      = [saveMeta "v" "d" 24 0, saveMeta "v" "d" 24 1] :=
  ⟨by decide, by decide,
   (east_threshold_boundary "v" "d" 24 denseRects denseRects [] [] hBase hDist15
      (by decide) (by decide)).1 (by decide),
   (east_threshold_boundary "v" "d" 24 denseRects denseRects [] [] hBase hDist16
      (by decide) (by decide)).2 (by decide)⟩

/-- Case analysis of one selector step: either nothing is emitted (with the
state unchanged or with `last_similar` set to the current frame id), or the
previous `last_similar` frame is emitted and `last_similar` becomes the
current frame id. -/
lemma selStep_shape (sv dir : String) (fps : ℚ) (t : ℕ) (st : SelState)
    (fid : ℕ) (fd : FrameData) :
    ((selStep sv dir fps t st fid fd).2 = [] ∧
      ((selStep sv dir fps t st fid fd).1 = st ∨
        (selStep sv dir fps t st fid fd).1.last_similar = some fid)) ∨
    (∃ ls, st.last_similar = some ls ∧
      (selStep sv dir fps t st fid fd).1.last_similar = some fid ∧
      (selStep sv dir fps t st fid fd).2 = [saveMeta sv dir fps ls]) := by
  unfold selStep
  split
  · split
    · exact Or.inl ⟨rfl, Or.inr rfl⟩
    · split
      · exact Or.inl ⟨rfl, Or.inr rfl⟩
      · split
        · rename_i hls
          exact Or.inr ⟨_, hls, rfl, rfl⟩
        · exact Or.inl ⟨rfl, Or.inr rfl⟩
  · exact Or.inl ⟨rfl, Or.inl rfl⟩

/-- Every record emitted by the frame loop is a `saveMeta` record for some
frame id. -/
lemma eastLoop_emitted_saveMeta (sv dir : String) (fps : ℚ) (s t : ℕ) :
    ∀ (frames : List FrameData) (fid : ℕ) (st : SelState),
      ∀ m ∈ eastLoop sv dir fps s t frames fid st, ∃ f, m = saveMeta sv dir fps f := by
  intro frames
  induction frames with
  | nil =>
      intro fid st m hm
      cases h : st.last_similar with
      | none => simp [eastLoop, h] at hm
      | some f =>
          simp [eastLoop, h] at hm
          exact ⟨f, hm⟩
  | cons fd rest ih =>
      intro fid st m hm
      simp only [eastLoop] at hm
      split at hm
      · exact ih (fid + 1) st m hm
      · rw [List.mem_append] at hm
        rcases hm with hm | hm
        · rcases selStep_shape sv dir fps t st fid fd with ⟨hout, _⟩ | ⟨ls, _, _, hout⟩
          · rw [hout] at hm
            simp at hm
          · rw [hout] at hm
            rw [List.mem_singleton] at hm
            exact ⟨ls, hm⟩
        · exact ih (fid + 1) _ m hm

/-- The frame numbers of the records emitted by the frame loop strictly
increase, provided the pending `last_similar` frame id (if any) is below the
current frame id; moreover every emitted frame number is at least the pending
one. -/
lemma eastLoop_frame_numbers (sv dir : String) (fps : ℚ) (s t : ℕ) :
    ∀ (frames : List FrameData) (fid : ℕ) (st : SelState),
      (∀ f, st.last_similar = some f → f < fid) →
      List.Pairwise (fun a b : SavedMeta => a.frame_number < b.frame_number)
          (eastLoop sv dir fps s t frames fid st) ∧
      ∀ m ∈ eastLoop sv dir fps s t frames fid st,
        ∀ f, st.last_similar = some f → f ≤ m.frame_number := by
  intro frames
  induction frames with
  | nil =>
      intro fid st _
      cases h : st.last_similar with
      | none => simp [eastLoop, h]
      | some f =>
          refine ⟨by simp [eastLoop, h], ?_⟩
          intro m hm f' hf'
          have hff : f = f' := by
            simp only [Option.some.injEq] at hf'
            exact hf'
          simp only [eastLoop, h] at hm
          rw [List.mem_singleton] at hm
          subst hm
          simp [saveMeta, ← hff]
  | cons fd rest ih =>
      intro fid st hinv
      have hinv1 : ∀ f, st.last_similar = some f → f < fid + 1 :=
        fun f hf => Nat.lt_succ_of_lt (hinv f hf)
      simp only [eastLoop]
      split
      · exact ih (fid + 1) st hinv1
      · rcases selStep_shape sv dir fps t st fid fd with ⟨hout, hst⟩ | ⟨ls, hls, hst1, hout⟩
        · rw [hout, List.nil_append]
          rcases hst with h1 | h1
          · rw [h1]
            exact ih (fid + 1) st hinv1
          · have hrec := ih (fid + 1) (selStep sv dir fps t st fid fd).1 (by
              intro f hf
              rw [h1, Option.some.injEq] at hf
              rw [← hf]
              exact Nat.lt_succ_self fid)
            refine ⟨hrec.1, ?_⟩
            intro m hm f hf
            exact le_trans (le_of_lt (hinv f hf)) (hrec.2 m hm fid h1)
        · rw [hout]
          have hrec := ih (fid + 1) (selStep sv dir fps t st fid fd).1 (by
              intro f hf
              rw [hst1, Option.some.injEq] at hf
              rw [← hf]
              exact Nat.lt_succ_self fid)
          have hlsfid : ls < fid := hinv ls hls
          constructor
          · refine List.Pairwise.cons ?_ hrec.1
            intro m hm
            have h2 : fid ≤ m.frame_number := hrec.2 m hm fid hst1
            show (saveMeta sv dir fps ls).frame_number < m.frame_number
            exact lt_of_lt_of_le hlsfid h2
          · intro m hm f hf
            rw [hls, Option.some.injEq] at hf
            rw [← hf]
            rcases List.mem_cons.mp hm with hm | hm
            · rw [hm]
              simp [saveMeta]
            · exact le_trans (le_of_lt hlsfid) (hrec.2 m hm fid hst1)

/-- Claim C6: every emitted record's timestamp equals
`frame_number / frame_rate`, and across the output sequence the timestamps
are monotonically non-decreasing (for a positive frame rate). -/
theorem east_timestamps (sv dir : String) (fps : ℚ) (hfps : 0 < fps)
    (s t : ℕ) (frames : List FrameData) :
    (∀ m ∈ east_text_frame_extraction sv dir fps s t frames,
        m.timestamp = (m.frame_number : ℚ) / fps) ∧
    List.Sorted (· ≤ ·)
      ((east_text_frame_extraction sv dir fps s t frames).map SavedMeta.timestamp) := by
  have hts : ∀ m ∈ east_text_frame_extraction sv dir fps s t frames,
      m.timestamp = (m.frame_number : ℚ) / fps := by
    intro m hm
    obtain ⟨f, rfl⟩ := eastLoop_emitted_saveMeta sv dir fps s t frames 0 ⟨none, none⟩ m hm
    rfl
  refine ⟨hts, ?_⟩
  have hpw := (eastLoop_frame_numbers sv dir fps s t frames 0 ⟨none, none⟩
      (by intro f hf; cases hf)).1
  rw [List.Sorted, List.pairwise_map]
  refine hpw.imp_of_mem ?_
  intro a b ha hb hab
  rw [hts a ha, hts b hb]
  have hcast : (a.frame_number : ℚ) ≤ (b.frame_number : ℚ) := by
    exact_mod_cast Nat.le_of_lt hab
  gcongr

/-- Witness for the C6 theorem on a concrete two-frame stream with fps 24. -/
theorem east_timestamps_witness :
    (0 : ℚ) < 24 ∧
    ((∀ m ∈ east_text_frame_extraction "v" "d" 24 1 15
          [⟨denseRects, [], hBase⟩, ⟨denseRects, [], hFar⟩],
        m.timestamp = (m.frame_number : ℚ) / 24) ∧
      List.Sorted (· ≤ ·)
        ((east_text_frame_extraction "v" "d" 24 1 15
            [⟨denseRects, [], hBase⟩, ⟨denseRects, [], hFar⟩]).map
          SavedMeta.timestamp)) :=
  ⟨by norm_num,
   east_timestamps "v" "d" 24 (by norm_num) 1 15
     [⟨denseRects, [], hBase⟩, ⟨denseRects, [], hFar⟩]⟩

/-- Claim C5: at end of stream, an active run (`last_similar = some f`)
produces exactly one flush record, for its representative frame `f`; an idle
end of stream (`last_similar = none`) produces none, and the empty stream
(zero frames) yields the empty output. -/
theorem east_end_of_stream_flush (sv dir : String) (fps : ℚ)
    (s t fid : ℕ) (st : SelState) :
    (∀ f, st.last_similar = some f →
        eastLoop sv dir fps s t [] fid st = [saveMeta sv dir fps f]) ∧
    (st.last_similar = none → eastLoop sv dir fps s t [] fid st = []) ∧
    east_text_frame_extraction sv dir fps s t [] = [] := by
  refine ⟨fun f hf => ?_, fun hn => ?_, rfl⟩
  · simp [eastLoop, hf]
  · simp [eastLoop, hn]

/-- Witness for the C5 theorem: flush of a run ending at frame 960, and the
empty cases. -/
theorem east_end_of_stream_flush_witness :
    eastLoop "v" "d" 24 240 15 [] 961 ⟨some hBase, some 960⟩
        = [saveMeta "v" "d" 24 960] ∧
    eastLoop "v" "d" 24 240 15 [] 0 ⟨none, none⟩ = [] ∧
    east_text_frame_extraction "v" "d" 24 240 15 [] = [] :=
  ⟨(east_end_of_stream_flush "v" "d" 24 240 15 961 ⟨some hBase, some 960⟩).1 960 rfl,
   (east_end_of_stream_flush "v" "d" 24 240 15 0 ⟨none, none⟩).2.1 rfl,
   (east_end_of_stream_flush "v" "d" 24 240 15 0 ⟨none, none⟩).2.2⟩

/-- The inner decode loop keeps exactly the cells whose score reaches the
threshold, in order, emitting one box and one confidence per kept cell. -/
lemma decodeCells_eq (cosF sinF : ℚ → ℚ) (m : EastMaps) (thr : ℚ) (y : ℕ) :
    ∀ xs : List ℕ,
      decodeCells cosF sinF m thr y xs
        = ((xs.filter fun x => !decide (m.score y x < thr)).map
              (fun x => eastBox cosF sinF m y x),
           (xs.filter fun x => !decide (m.score y x < thr)).map
              (fun x => m.score y x)) := by
  intro xs
  induction xs with
  | nil => rfl
  | cons x xs ih =>
      simp only [decodeCells, ih, List.filter_cons]
      by_cases h : m.score y x < thr
      · simp [h]
      · simp [h]

/-- The outer decode loop concatenates the per-row results, which equals the
filter-and-map over the corresponding cell list. -/
lemma decodeRows_eq (cosF sinF : ℚ → ℚ) (m : EastMaps) (thr : ℚ) :
    ∀ ys : List ℕ,
      decodeRows cosF sinF m thr ys
        = ((keptCells m thr (rowCells m ys)).map
              (fun c => eastBox cosF sinF m c.1 c.2),
           (keptCells m thr (rowCells m ys)).map
              (fun c => m.score c.1 c.2)) := by
  intro ys
  induction ys with
  | nil => rfl
  | cons y ys ih =>
      simp only [decodeRows, ih, keptCells, rowCells, List.flatMap_cons,
        List.filter_append, List.map_append, decodeCells_eq, List.filter_map,
        List.map_map]
      rfl

/-- Claim C7: the decoder skips a cell iff its score is below the confidence
threshold, and emits for every other cell exactly one box given by the
stride-4 offset / rotated-distance formulas of `eastBox` (each coordinate
truncated to an integer as by Python's `int`), paired with the cell's score
as its confidence; the number of emitted boxes is the number of cells at or
above the threshold, and boxes and confidences correspond one to one. -/
theorem decode_predictions_spec (cosF sinF : ℚ → ℚ) (m : EastMaps) (thr : ℚ) :
    decode_predictions cosF sinF m thr
      = ((keptCells m thr (rowMajorCells m)).map
            (fun c => eastBox cosF sinF m c.1 c.2),
         (keptCells m thr (rowMajorCells m)).map
            (fun c => m.score c.1 c.2)) ∧
    (decode_predictions cosF sinF m thr).1.length
      = (keptCells m thr (rowMajorCells m)).length ∧
    (decode_predictions cosF sinF m thr).1.length
      = (decode_predictions cosF sinF m thr).2.length := by
  have h := decodeRows_eq cosF sinF m thr (List.range m.numRows)
  have h1 : (decode_predictions cosF sinF m thr).1
      = (keptCells m thr (rowMajorCells m)).map
          (fun c => eastBox cosF sinF m c.1 c.2) := congrArg Prod.fst h
  have h2 : (decode_predictions cosF sinF m thr).2
      = (keptCells m thr (rowMajorCells m)).map
          (fun c => m.score c.1 c.2) := congrArg Prod.snd h
  refine ⟨h, ?_, ?_⟩
  · rw [h1, List.length_map]
  · rw [h1, h2, List.length_map, List.length_map]

/-- The selection loop never reads a frame's per-region confidences: only the
region count (`len(rects) > 50`) and the perceptual hash matter. -/
lemma eastLoop_confidences_irrelevant (sv dir : String) (fps : ℚ) (s t : ℕ)
    (confs : FrameData → List ℚ) :
    ∀ (frames : List FrameData) (fid : ℕ) (st : SelState),
      eastLoop sv dir fps s t
          (frames.map fun fd => ⟨fd.rects, confs fd, fd.hash⟩) fid st
        = eastLoop sv dir fps s t frames fid st := by
  intro frames
  induction frames with
  | nil => intro fid st; rfl
  | cons fd rest ih =>
      intro fid st
      simp only [List.map_cons, eastLoop]
      have hsel : selStep sv dir fps t st fid ⟨fd.rects, confs fd, fd.hash⟩
          = selStep sv dir fps t st fid fd := rfl
      split
      · exact ih (fid + 1) st
      · rw [hsel, ih]

/-- Claim C8: a missing model file makes construction itself fail with the
`FileNotFoundError` of `__init__`, and the combined construct-then-extract
pipeline fails with exactly that construction error for every video and frame
stream — eagerly, before any frame is processed. -/
theorem extractorInit_missing_model (modelPath : String) (videoExists : Bool)
    (videoName imagesDir : String) (fps : ℚ) (fmt : ℚ → String)
    (inner : Except String (List FrameData)) :
    extractorInit false modelPath
        = Except.error (ExtractErr.fileNotFound ("EAST model not found at: " ++ modelPath)) ∧
    runPipeline false modelPath videoExists videoName imagesDir fps fmt inner
        = Except.error (ExtractErr.fileNotFound ("EAST model not found at: " ++ modelPath)) :=
  ⟨rfl, rfl⟩

/-- Claim C9: every keyframe built by `_convert_to_keyframes` carries the
hardcoded confidence score 0.8, and the per-region detection confidences of
the frames never reach the output: replacing them arbitrarily leaves
`extract`'s result unchanged. -/
theorem keyframes_constant_confidence (fmt : ℚ → String)
    (videoName imagesDir : String) (fps : ℚ)
    (metas : List SavedMeta) (src : String) (kf : Keyframe)
    (hkf : kf ∈ convert_to_keyframes fmt metas src)
    (frames : List FrameData) (confs : FrameData → List ℚ) :
    kf.confidence_score = 4 / 5 ∧
    extract true videoName imagesDir fps fmt
        (Except.ok (frames.map fun fd => ⟨fd.rects, confs fd, fd.hash⟩))
      = extract true videoName imagesDir fps fmt (Except.ok frames) := by
  constructor
  · simp only [convert_to_keyframes, List.mem_map] at hkf
    obtain ⟨mdata, _, rfl⟩ := hkf
    rfl
  · simp only [extract, if_true, east_text_frame_extraction]
    rw [eastLoop_confidences_irrelevant]

/-- Witness for the C9 theorem: a concrete converted keyframe has confidence
0.8, and a concrete confidence replacement does not change `extract`. -/
theorem keyframes_constant_confidence_witness :
    (Keyframe.mk (saveMeta "v.mp4" "imgs" 24 480).timestamp
        (saveMeta "v.mp4" "imgs" 24 480).frame_path
        ("Text-rich frame detected at " ++ "t" ++ "s") (4 / 5)
        "v.mp4").confidence_score = 4 / 5 ∧
    extract true "v.mp4" "imgs" 24 (fun _ => "t")
        (Except.ok [⟨denseRects, [(1 : ℚ)], hBase⟩])
      = extract true "v.mp4" "imgs" 24 (fun _ => "t")
        (Except.ok [⟨denseRects, [], hBase⟩]) :=
  keyframes_constant_confidence (fun _ => "t") "v.mp4" "imgs" 24
    [saveMeta "v.mp4" "imgs" 24 480] "v.mp4" _ (List.mem_singleton.mpr rfl)
    [⟨denseRects, [], hBase⟩] (fun _ => [(1 : ℚ)])

/-- Claim C10: inside `extract`, with the video present, every failure of the
body is re-raised as the generic `Exception` whose message is prefixed
`Keyframe extraction failed:`; a missing video file is the only failure that
escapes as `FileNotFoundError`, raised before the `try` block; and every
error `extract` returns with the video present is such a generic one. -/
theorem extract_error_wrapping (videoName imagesDir : String) (fps : ℚ)
    (fmt : ℚ → String) (inner : Except String (List FrameData)) (e : String) :
    extract true videoName imagesDir fps fmt (Except.error e)
        = Except.error (ExtractErr.generic ("Keyframe extraction failed: " ++ e)) ∧
    extract false videoName imagesDir fps fmt inner
        = Except.error (ExtractErr.fileNotFound ("Video file not found: " ++ videoName)) ∧
    (∀ err, extract true videoName imagesDir fps fmt inner = Except.error err →
        ∃ msg, err = ExtractErr.generic ("Keyframe extraction failed: " ++ msg)) := by
  refine ⟨rfl, rfl, ?_⟩
  intro err herr
  cases inner with
  | error e0 =>
      refine ⟨e0, ?_⟩
      simp only [extract, if_true] at herr
      exact (Except.error.injEq _ _).mp herr.symm
  | ok frames =>
      simp only [extract, if_true] at herr
      cases herr

/-- Witness for the C10 theorem at a concrete failing body and a concrete
missing video. -/
theorem extract_error_wrapping_witness :
    extract true "v.mp4" "imgs" 24 (fun _ => "t") (Except.error "boom")
        = Except.error (ExtractErr.generic ("Keyframe extraction failed: " ++ "boom")) ∧
    extract false "v.mp4" "imgs" 24 (fun _ => "t") (Except.ok [])
        = Except.error (ExtractErr.fileNotFound ("Video file not found: " ++ "v.mp4")) ∧
    (∃ msg, ExtractErr.generic ("Keyframe extraction failed: " ++ "boom")
        = ExtractErr.generic ("Keyframe extraction failed: " ++ msg)) :=
  ⟨(extract_error_wrapping "v.mp4" "imgs" 24 (fun _ => "t") (Except.ok []) "boom").1,
   (extract_error_wrapping "v.mp4" "imgs" 24 (fun _ => "t") (Except.ok []) "boom").2.1,
   (extract_error_wrapping "v.mp4" "imgs" 24 (fun _ => "t") (Except.error "boom")
       "boom").2.2
     (ExtractErr.generic ("Keyframe extraction failed: " ++ "boom")) rfl⟩

end VideoSummarizer
